import Mathlib

/-!
Shallow embedding of the grove session-tree state machine
( internal/ui model, internal/tmux client, internal/config )
and proofs about its tree builder, selection clamp, windowing,
sanitization, prompt validation, kill confirmation, preview
sequence filtering and pane-state aggregation.

Go strings are modelled as Lean strings; Go byte-lexicographic
string comparison is modelled by codepoint-lexicographic
comparison (identical orders on UTF-8 encoded text). Go ints are
modelled as Int except for list indices produced by range loops,
which are Nat. Effectful standard-library calls that the embedded
code makes (filesystem stat, absolute-path resolution, home
directory, $EDITOR, clock, text-input editing) are supplied by an
explicit Env record.
-/

/-! ## String helpers (models of Go strings package functions) -/

/-- Lexicographic strict order on char lists (Go string comparison). -/
def charListLt : List Char → List Char → Bool
  | [], [] => false
  | [], _ :: _ => true
  | _ :: _, [] => false
  | a :: as, b :: bs => if a < b then true else if b < a then false else charListLt as bs

/-- Model of Go string comparison a < b. -/
def strLt (a b : String) : Bool := charListLt a.data b.data

/-- Non-strict string comparison, defined as the negation of the reverse strict one. -/
def strLe (a b : String) : Bool := !(strLt b a)

/-- Model of strings.Contains: needle occurs as a contiguous substring. -/
def strContains (s sub : String) : Bool :=
  s.data.tails.any (fun t => sub.data.isPrefixOf t)

/-- Model of strings.ToLower (ASCII case folding). -/
def lowerStr (s : String) : String := String.mk (s.data.map Char.toLower)

/-- Trim a predicate from both ends of a char list. -/
def trimEnds (p : Char → Bool) (l : List Char) : List Char :=
  ((l.dropWhile p).reverse.dropWhile p).reverse

/-- Model of strings.TrimSpace at the char level. -/
def trimSpaceChars (l : List Char) : List Char := trimEnds Char.isWhitespace l

/-- Model of strings.TrimSpace. -/
def trimSpaceStr (s : String) : String := String.mk (trimSpaceChars s.data)

/-- Model of strings.TrimPrefix. -/
def stripPrefixStr (s p : String) : String :=
  if p.data.isPrefixOf s.data then String.mk (s.data.drop p.data.length) else s

/-! ## internal/config -/

/-- config.Folder (the namespace field is called nspace: Lean reserves the word). -/
structure Folder where
  name : String
  path : String
  nspace : String
  defaultCommand : String
  editorCommand : String
deriving DecidableEq, Repr

/-- config.Config. -/
structure Config where
  editorCommand : String
  folders : List Folder
deriving DecidableEq, Repr

/-- Character class [a-z0-9] used by config.Slug and ui.sanitizeLeaf. -/
def isLeafChar (c : Char) : Bool :=
  (decide ('a' ≤ c) && decide (c ≤ 'z')) || (decide ('0' ≤ c) && decide (c ≤ '9'))

/-- Core loop of config.Slug: collapse runs of non-alphanumerics to single hyphens.
The Bool argument is the lastDash flag of the Go loop. -/
def slugCore : List Char → Bool → List Char
  | [], _ => []
  | c :: cs, lastDash =>
    if isLeafChar c then c :: slugCore cs false
    else if lastDash then slugCore cs lastDash
    else '-' :: slugCore cs true

/-- config.Slug. -/
def Slug (s : String) : String :=
  let cs := trimSpaceChars (s.data.map Char.toLower)
  String.mk (trimEnds (fun c => c == '-') (slugCore cs false))

/-- config.ExpandHome, with the home directory supplied explicitly
(os.UserHomeDir result: none models an error). filepath.Join of the home
directory and the remainder is modelled as separator concatenation. -/
def ExpandHome (home : Option String) (path : String) : String :=
  if path = "~" then
    match home with
    | none => path
    | some h => h
  else if "~/".data.isPrefixOf path.data then
    match home with
    | none => path
    | some h => h ++ "/" ++ String.mk (path.data.drop 2)
  else path

/-! ## internal/tmux -/

/-- tmux.Session. -/
structure GoSession where
  name : String
  windows : Int
  attached : Bool
  hasAlerts : Bool
  alertsBell : Bool
  alertsActivity : Bool
  alertsSilence : Bool
  lastActivity : Int
  currentCommand : String
  paneTitle : String
  currentPath : String
deriving DecidableEq, Repr

/-- tmux.PaneInfo. -/
structure PaneInfo where
  sessionName : String
  windowIndex : Int
  command : String
  paneActive : Bool
  windowActive : Bool
  paneTitle : String
  activityFlag : Bool
  bellFlag : Bool
  silenceFlag : Bool
  currentPath : String
deriving DecidableEq, Repr

/-- tmux.ActivePaneState. -/
structure ActivePaneState where
  command : String
  paneTitle : String
  currentPath : String
  bellFlag : Bool
  activityFlag : Bool
  silenceFlag : Bool
deriving DecidableEq, Repr

/-- Zero value of tmux.ActivePaneState (Go map miss). -/
def emptyActivePaneState : ActivePaneState :=
  { command := "", paneTitle := "", currentPath := "",
    bellFlag := false, activityFlag := false, silenceFlag := false }

/-- tmux.stripTitleBranding. -/
def stripTitleBranding (title : String) : String :=
  if "✳ ".data.isPrefixOf title.data then stripPrefixStr title "✳ "
  else if "* ".data.isPrefixOf title.data then stripPrefixStr title "* "
  else title

/-- Replace the binding of a key in an association list, or append it
(model of Go map assignment; iteration order is never used by the source). -/
def assocInsert (l : List (String × ActivePaneState)) (k : String) (v : ActivePaneState) :
    List (String × ActivePaneState) :=
  match l with
  | [] => [(k, v)]
  | (k', v') :: rest => if k' == k then (k, v) :: rest else (k', v') :: assocInsert rest k v

/-- Body of the loop of tmux.ActivePaneStates for one pane record. -/
def activePaneStep (result : List (String × ActivePaneState)) (p : PaneInfo) :
    List (String × ActivePaneState) :=
  let found := result.lookup p.sessionName
  let state := found.getD emptyActivePaneState
  let state :=
    if p.windowActive && p.paneActive then
      { state with command := p.command,
                   paneTitle := stripTitleBranding (trimSpaceStr p.paneTitle),
                   currentPath := p.currentPath }
    else state
  let state := if p.bellFlag then { state with bellFlag := true } else state
  let state := if p.activityFlag then { state with activityFlag := true } else state
  let state := if p.silenceFlag then { state with silenceFlag := true } else state
  if (p.windowActive && p.paneActive) || found.isSome then
    assocInsert result p.sessionName state
  else result

/-- tmux.ActivePaneStates: per-session aggregation of pane records. -/
def ActivePaneStates (panes : List PaneInfo) : List (String × ActivePaneState) :=
  panes.foldl activePaneStep []

/-! ## internal/ui: row and mode types -/

/-- ui.rowType. -/
inductive RowType where
  | rowFolder
  | rowSession
deriving DecidableEq, Repr

/-- ui.treeRow. -/
structure TreeRow where
  typeOf : RowType
  folderIndex : Nat
  sessionName : String
  leafName : String
  status : String
  windows : Int
  hasAlerts : Bool
  alertsBell : Bool
  alertsActivity : Bool
  alertsSilence : Bool
  currentCommand : String
  paneTitle : String
  currentPath : String
  lastActivity : Int
deriving DecidableEq, Repr

/-- ui.promptMode. -/
inductive PromptMode where
  | promptNone
  | promptNewSession
  | promptRenameSession
  | promptRunCommand
  | promptFilter
  | promptAddFolder
deriving DecidableEq, Repr

/-- ui.detailMode. -/
inductive DetailMode where
  | detailNormal
  | detailPreview
deriving DecidableEq, Repr

/-- Folder zero value (Go config.Folder literal with no fields). -/
def emptyFolder : Folder :=
  { name := "", path := "", nspace := "", defaultCommand := "", editorCommand := "" }

/-- A treeRow literal carrying only typeOf rowFolder and a folder index
(all other Go fields take their zero values). -/
def folderRowOf (folderIndex : Nat) : TreeRow :=
  { typeOf := .rowFolder, folderIndex := folderIndex,
    sessionName := "", leafName := "", status := "", windows := 0,
    hasAlerts := false, alertsBell := false, alertsActivity := false,
    alertsSilence := false, currentCommand := "", paneTitle := "",
    currentPath := "", lastActivity := 0 }

/-! ## internal/ui: the model -/

/-- ui.Model, restricted to the state the state machine reads and writes
(styles, terminal handles and the tmux client capability are omitted;
the text input is represented by its value, placeholder and focus flag). -/
structure UIModel where
  cfg : Config
  width : Int
  height : Int
  rows : List TreeRow
  selected : Int
  sessions : Nat → List GoSession
  statusMsg : String
  statusSeq : Int
  errMsg : String
  filterQuery : String
  confirmKillTarget : String
  detailScroll : Int
  detailMode : DetailMode
  previewTarget : String
  previewContent : String
  previewLoading : Bool
  previewErr : Option String
  previewSeq : Int
  previewZoomed : Bool
  promptValue : String
  promptPlaceholder : String
  promptFocused : Bool
  promptMode : PromptMode
  promptStep : Int
  pendingFolder : Folder

/-- Asynchronous commands the update function can issue (tea.Cmd values);
a returned command list models tea.Batch, the empty list models a nil command. -/
inductive Cmd where
  | quit
  | tick
  | previewTick
  | blink
  | loadSessions
  | clearStatusAfter (seq : Int)
  | killSession (name : String)
  | newSession (fullName : String) (cwd : String) (defaultCommand : String)
  | renameSession (oldName : String) (newName : String)
  | sendKeys (target : String) (text : String)
  | capturePane (target : String) (seq : Int)
  | attach (name : String)
  | addFolder (f : Folder)
  | execEditor (command : String) (dir : String)
deriving DecidableEq, Repr

/-- Messages consumed by ui.Model.Update. -/
inductive Msg where
  | key (k : String)
  | windowSize (w h : Int)
  | sessionsLoaded (sessions : Nat → List GoSession) (err : Option String)
  | actionResult (status : String) (err : Option String) (attachTarget : String)
  | attached (err : Option String)
  | paneCaptured (target : String) (content : String) (err : Option String) (seq : Int)
  | previewTick
  | folderAdded (folder : Folder) (err : Option String)
  | clearStatus (seq : Int)
  | timeTick

/-- Environment capabilities the ui code consumes: the clock-derived
default-leaf base, $EDITOR, os.UserHomeDir, filepath.Abs, os.Stat.IsDir,
the filesystem-dependent completePathInput, and the textinput editing
behaviour for ordinary keys. -/
structure Env where
  nowBase : String
  editorEnv : String
  home : Option String
  abs : String → Option String
  statIsDir : String → Option Bool
  completePath : String → String
  promptEdit : String → String → String

/-! ## internal/ui: tree builder (ui.Model.rebuildRows) -/

/-- Insertion step of the session sort (a deterministic model of Go
sort.Slice with the less function of rebuildRows). -/
def insertLe {α : Type} (le : α → α → Bool) (a : α) : List α → List α
  | [] => [a]
  | b :: bs => if le a b then a :: b :: bs else b :: insertLe le a bs

/-- Insertion sort by a Bool relation. -/
def sortLe {α : Type} (le : α → α → Bool) : List α → List α
  | [] => []
  | a :: as => insertLe le a (sortLe le as)

/-- Ascending-by-name session order used by rebuildRows. -/
def sessionLe (a b : GoSession) : Bool := !(strLt b.name a.name)

/-- Sessions of a folder sorted ascending by full name. -/
def sortSessions (sessions : List GoSession) : List GoSession :=
  sortLe sessionLe sessions

/-- ui.containsAny. -/
def containsAny (a b c needle : String) : Bool :=
  strContains a needle || strContains b needle || strContains c needle

/-- Folder-metadata filter match of rebuildRows. -/
def folderMatchesQ (folder : Folder) (query : String) : Bool :=
  (query == "") ||
    containsAny (lowerStr folder.name) (lowerStr folder.path) (lowerStr folder.nspace) query

/-- Leaf name of a session within its folder. -/
def sessionLeaf (folder : Folder) (s : GoSession) : String :=
  stripPrefixStr s.name (folder.nspace ++ "/")

/-- Status text of a session row. -/
def sessionStatus (s : GoSession) : String :=
  if s.attached then "attached" else "detached"

/-- The session treeRow literal built inside the rebuildRows loop. -/
def sessionRowOf (folder : Folder) (folderIndex : Nat) (s : GoSession) : TreeRow :=
  { typeOf := .rowSession, folderIndex := folderIndex,
    sessionName := s.name, leafName := sessionLeaf folder s,
    status := sessionStatus s, windows := s.windows,
    hasAlerts := s.hasAlerts, alertsBell := s.alertsBell,
    alertsActivity := s.alertsActivity, alertsSilence := s.alertsSilence,
    currentCommand := s.currentCommand, paneTitle := s.paneTitle,
    currentPath := s.currentPath, lastActivity := s.lastActivity }

/-- Per-session inclusion condition of rebuildRows (folderMatches is passed
in as computed once per folder). -/
def sessionIncluded (folder : Folder) (fm : Bool) (query : String) (s : GoSession) : Bool :=
  fm || (query == "") ||
    containsAny (lowerStr (sessionLeaf folder s)) (lowerStr s.name)
      (lowerStr (sessionStatus s)) query

/-- The matchedSessions slice built for one folder. -/
def matchedRows (folder : Folder) (folderIndex : Nat) (sessions : List GoSession)
    (query : String) : List TreeRow :=
  ((sortSessions sessions).filter
      (sessionIncluded folder (folderMatchesQ folder query) query)).map
    (sessionRowOf folder folderIndex)

/-- Rows contributed by one folder: nothing when the folder is filtered out,
otherwise its folder row followed by its matched session rows. -/
def folderChunk (folderIndex : Nat) (folder : Folder) (sessions : List GoSession)
    (query : String) : List TreeRow :=
  let fm := folderMatchesQ folder query
  let matched := matchedRows folder folderIndex sessions query
  if !fm && matched.isEmpty then [] else folderRowOf folderIndex :: matched

/-- The folder loop of rebuildRows (folderIndex is the running range index). -/
def buildRowsAux (smap : Nat → List GoSession) (query : String) :
    List Folder → Nat → List TreeRow
  | [], _ => []
  | folder :: rest, folderIndex =>
      folderChunk folderIndex folder (smap folderIndex) query ++
        buildRowsAux smap query rest (folderIndex + 1)

/-- The row list computed by ui.Model.rebuildRows. -/
def buildRows (folders : List Folder) (smap : Nat → List GoSession)
    (filterQuery : String) : List TreeRow :=
  buildRowsAux smap (lowerStr (trimSpaceStr filterQuery)) folders 0

/-- ui.Model.rebuildRows: recompute rows, clamp the selection, reset detail scroll. -/
def UIModel.rebuildRows (m : UIModel) : UIModel :=
  let rows := buildRows m.cfg.folders m.sessions m.filterQuery
  let selected :=
    if m.selected ≥ (rows.length : Int) ∧ rows.length > 0 then (rows.length : Int) - 1
    else m.selected
  let selected := if selected < 0 then 0 else selected
  { m with rows := rows, selected := selected, detailScroll := 0 }

/-! ## internal/ui: selection, windowing, status -/

/-- ui.Model.setSelected. -/
def UIModel.setSelected (m : UIModel) (next : Int) : UIModel :=
  if m.rows.length = 0 then { m with selected := 0, detailScroll := 0 }
  else
    let next := if next < 0 then 0 else next
    let next := if next ≥ (m.rows.length : Int) then (m.rows.length : Int) - 1 else next
    { m with detailScroll := if next ≠ m.selected then 0 else m.detailScroll,
             selected := next }

/-- ui.windowAround. Division occurs only under the guard
0 < maxItems < total, where every integer-division convention agrees
with the Go one. -/
def windowAround (selected total maxItems : Int) : Int × Int :=
  if total ≤ 0 then (0, 0)
  else if maxItems ≤ 0 ∨ maxItems ≥ total then (0, total)
  else
    let start := selected - maxItems / 2
    let start := if start < 0 then 0 else start
    let stop := start + maxItems
    if stop > total then
      let stop := total
      let start := stop - maxItems
      let start := if start < 0 then 0 else start
      (start, stop)
    else (start, stop)

/-- ui.Model.contentHeight. -/
def contentHeight (m : UIModel) : Int :=
  if m.height ≤ 0 then 18
  else
    let h := m.height - 3
    if h < 8 then 8 else h

/-- ui.Model.setStatus: set the status message, bump the sequence number and
schedule the matching delayed clear. -/
def setStatus (m : UIModel) (msg : String) : UIModel × Cmd :=
  ({ m with statusMsg := msg, errMsg := "", statusSeq := m.statusSeq + 1 },
   Cmd.clearStatusAfter (m.statusSeq + 1))

/-- ui.Model.openPrompt. -/
def openPrompt (m : UIModel) (mode : PromptMode) (initial placeholder : String) : UIModel :=
  { m with promptMode := mode, promptValue := initial,
           promptPlaceholder := placeholder, promptFocused := true,
           errMsg := "",
           statusMsg := if mode = .promptRunCommand then "run command in selected session" else "" }

/-! ## internal/ui: sanitization and command constructors -/

/-- Core loop of ui.sanitizeLeaf: like the Slug loop but slashes are
skipped without touching the lastDash flag. -/
def sanitizeCore : List Char → Bool → List Char
  | [], _ => []
  | c :: cs, lastDash =>
    if isLeafChar c then c :: sanitizeCore cs false
    else if c = '/' then sanitizeCore cs lastDash
    else if lastDash then sanitizeCore cs lastDash
    else '-' :: sanitizeCore cs true

/-- ui.sanitizeLeaf. -/
def sanitizeLeaf (s : String) : String :=
  let cs := trimSpaceChars (s.data.map Char.toLower)
  let out := trimEnds (fun c => c == '-') (sanitizeCore cs false)
  if out.isEmpty then "session" else String.mk out

/-- ui.Model.defaultSessionLeaf; the clock-formatted base comes from Env. -/
def defaultSessionLeaf (env : Env) (folder : Folder) : String :=
  sanitizeLeaf (folder.nspace ++ "-" ++ env.nowBase)

/-- ui.Model.newSessionCmd: the async command carries the sanitized full name. -/
def newSessionCmd (folder : Folder) (leaf : String) : Cmd :=
  Cmd.newSession (folder.nspace ++ "/" ++ sanitizeLeaf leaf) folder.path folder.defaultCommand

/-- ui.Model.resolveEditorCommand. -/
def resolveEditorCommand (env : Env) (m : UIModel) (folder : Folder) : String :=
  if folder.editorCommand ≠ "" then folder.editorCommand
  else if m.cfg.editorCommand ≠ "" then m.cfg.editorCommand
  else if env.editorEnv ≠ "" then env.editorEnv
  else ""

/-! ## internal/ui: row selection helpers -/

/-- Bounds-checked access to the selected row (shared guard of
selectedSessionRow and selectedFolder). -/
def selectedRow (m : UIModel) : Option TreeRow :=
  if m.rows.length = 0 ∨ m.selected < 0 ∨ m.selected ≥ (m.rows.length : Int) then none
  else m.rows[m.selected.toNat]?

/-- ui.Model.selectedSessionRow. -/
def selectedSessionRow (m : UIModel) : Option TreeRow :=
  match selectedRow m with
  | none => none
  | some row => if row.typeOf = .rowSession then some row else none

/-- ui.Model.selectedFolder (the Go index expression cannot fail on rows
built by rebuildRows; an out-of-range folder index yields none here). -/
def selectedFolder (m : UIModel) : Option Folder :=
  match selectedRow m with
  | none => none
  | some row => m.cfg.folders[row.folderIndex]?

/-! ## internal/ui: mode-specific update handlers -/

/-- ui.Model.startPreview. -/
def startPreview (m : UIModel) : UIModel × List Cmd :=
  match selectedSessionRow m with
  | none => ({ m with detailMode := .detailNormal }, [])
  | some row =>
    let m := { m with previewSeq := m.previewSeq + 1,
                      previewTarget := row.sessionName,
                      previewLoading := true,
                      previewErr := none,
                      previewContent := "",
                      detailScroll := 0,
                      previewZoomed := false }
    (m, [Cmd.capturePane row.sessionName m.previewSeq])

/-- ui.Model.updateKillConfirm (non-key messages fall through unchanged). -/
def updateKillConfirm (m : UIModel) (msg : Msg) : UIModel × List Cmd :=
  match msg with
  | .key k =>
    let s := lowerStr k
    if s = "y" ∨ s = "enter" then
      let target := m.confirmKillTarget
      ({ m with confirmKillTarget := "" }, [Cmd.killSession target])
    else if s = "n" ∨ s = "esc" then
      let r := setStatus { m with confirmKillTarget := "" } "kill cancelled"
      (r.1, [r.2])
    else (m, [])
  | _ => (m, [])

/-- ui.Model.updatePreview. -/
def updatePreview (m : UIModel) (k : String) : UIModel × List Cmd :=
  if k = "ctrl+c" ∨ k = "q" then (m, [Cmd.quit])
  else if k = "esc" then
    if m.previewZoomed then ({ m with previewZoomed := false }, [])
    else ({ m with detailMode := .detailNormal }, [])
  else if k = "z" then
    ({ m with previewZoomed := !m.previewZoomed, detailScroll := 0 }, [])
  else if k = "r" then (m, [Cmd.capturePane m.previewTarget m.previewSeq])
  else if k = "enter" then
    match selectedSessionRow m with
    | none => (m, [])
    | some row =>
      ({ m with detailMode := .detailNormal, previewZoomed := false,
                statusMsg := "attached to " ++ row.sessionName ++ " (detach with Ctrl-b d)",
                errMsg := "" },
       [Cmd.attach row.sessionName])
  else (m, [])

/-- The enter branch of ui.Model.updatePrompt, dispatched on the saved mode.
At entry the prompt has already been blurred and promptMode reset to
promptNone, exactly as in the source. -/
def promptSubmit (env : Env) (m : UIModel) (mode : PromptMode) (value : String) :
    UIModel × List Cmd :=
  match mode with
  | .promptNewSession =>
    (match selectedFolder m with
     | none => ({ m with errMsg := "select a folder" }, [])
     | some folder =>
       if value = "" then ({ m with errMsg := "session name is required" }, [])
       else (m, [newSessionCmd folder value]))
  | .promptRenameSession =>
    (match selectedSessionRow m with
     | none => ({ m with errMsg := "select a session" }, [])
     | some row =>
       if value = "" then ({ m with errMsg := "new session name is required" }, [])
       else
         match m.cfg.folders[row.folderIndex]? with
         | none => (m, [])
         | some folder =>
           (m, [Cmd.renameSession row.sessionName (folder.nspace ++ "/" ++ sanitizeLeaf value)]))
  | .promptRunCommand =>
    (match selectedSessionRow m with
     | none => ({ m with errMsg := "select a session" }, [])
     | some row =>
       if value = "" then ({ m with errMsg := "command cannot be empty" }, [])
       else (m, [Cmd.sendKeys row.sessionName value]))
  | .promptAddFolder =>
    if m.promptStep = 0 then
      if value = "" then ({ m with errMsg := "folder name is required" }, [])
      else
        let ns := Slug value
        if ns = "" then ({ m with errMsg := "folder name produced empty namespace" }, [])
        else if m.cfg.folders.any (fun f => f.nspace == ns) then
          ({ m with errMsg := "namespace \"" ++ ns ++ "\" already exists" }, [])
        else
          let m := { m with pendingFolder := { m.pendingFolder with name := value, nspace := ns },
                            promptStep := 1, promptMode := .promptAddFolder }
          (openPrompt m .promptAddFolder "" "folder path", [Cmd.blink])
    else if m.promptStep = 1 then
      if value = "" then ({ m with errMsg := "folder path is required" }, [])
      else
        let value := ExpandHome env.home value
        match env.abs value with
        | none => ({ m with errMsg := "invalid path" }, [])
        | some absPath =>
          match env.statIsDir absPath with
          | none => ({ m with errMsg := "path not found" }, [])
          | some false => ({ m with errMsg := "path is not a directory" }, [])
          | some true =>
            let m := { m with pendingFolder := { m.pendingFolder with path := absPath },
                              promptStep := 2, promptMode := .promptAddFolder }
            (openPrompt m .promptAddFolder "" "default command (optional)", [Cmd.blink])
    else if m.promptStep = 2 then
      let m := { m with pendingFolder := { m.pendingFolder with defaultCommand := value },
                        promptStep := 3, promptMode := .promptAddFolder }
      (openPrompt m .promptAddFolder "" "editor command (optional, e.g. code .)", [Cmd.blink])
    else if m.promptStep = 3 then
      let m := { m with pendingFolder := { m.pendingFolder with editorCommand := value } }
      (m, [Cmd.addFolder m.pendingFolder])
    else
      ({ m with promptValue := env.promptEdit "enter" m.promptValue }, [])
  | .promptFilter =>
    let m := UIModel.rebuildRows { m with filterQuery := value }
    let r := setStatus m (if value = "" then "filter cleared" else "filter set: " ++ value)
    (r.1, [r.2])
  | .promptNone =>
    ({ m with promptValue := env.promptEdit "enter" m.promptValue }, [])

/-- ui.Model.updatePrompt. Keys other than esc, the add-folder tab
completion and enter are handed to the text input, modelled through
Env.promptEdit; the text input ignores foreign (non-key) messages. -/
def updatePrompt (env : Env) (m : UIModel) (msg : Msg) : UIModel × List Cmd :=
  match msg with
  | .key k =>
    if k = "esc" then
      ({ m with promptFocused := false, promptMode := .promptNone, statusMsg := "" }, [])
    else if k = "tab" ∧ m.promptMode = .promptAddFolder ∧ m.promptStep = 1 then
      ({ m with promptValue := env.completePath m.promptValue }, [])
    else if k = "enter" then
      let value := trimSpaceStr m.promptValue
      let mode := m.promptMode
      let m := { m with promptFocused := false, promptMode := .promptNone }
      promptSubmit env m mode value
    else
      ({ m with promptValue := env.promptEdit k m.promptValue }, [])
  | _ => (m, [])

/-- The Navigate-mode key bindings of ui.Model.Update. -/
def navigateKey (env : Env) (m : UIModel) (k : String) : UIModel × List Cmd :=
  if k = "ctrl+c" ∨ k = "q" then (m, [Cmd.quit])
  else if k = "esc" then
    if m.filterQuery ≠ "" then
      let m := UIModel.rebuildRows { m with filterQuery := "" }
      let r := setStatus m "filter cleared"
      (r.1, [r.2])
    else (m, [])
  else if k = "up" ∨ k = "k" then (m.setSelected (m.selected - 1), [])
  else if k = "down" ∨ k = "j" then (m.setSelected (m.selected + 1), [])
  else if k = "r" then (m, [Cmd.loadSessions])
  else if k = "/" then
    (openPrompt m .promptFilter m.filterQuery "filter folders and sessions", [Cmd.blink])
  else if k = "pgdown" ∨ k = "ctrl+f" then
    ({ m with detailScroll := m.detailScroll + contentHeight m / 2 }, [])
  else if k = "pgup" ∨ k = "ctrl+b" then
    let d := m.detailScroll - contentHeight m / 2
    ({ m with detailScroll := if d < 0 then 0 else d }, [])
  else if k = "n" then
    match selectedFolder m with
    | none => ({ m with errMsg := "select a folder or one of its sessions" }, [])
    | some folder =>
      (openPrompt m .promptNewSession (defaultSessionLeaf env folder) "new session name",
       [Cmd.blink])
  else if k = "R" then
    match selectedSessionRow m with
    | none => ({ m with errMsg := "select a session to rename" }, [])
    | some row => (openPrompt m .promptRenameSession row.leafName "rename session", [Cmd.blink])
  else if k = "c" then
    match selectedSessionRow m with
    | none => ({ m with errMsg := "select a session to run command" }, [])
    | some _ => (openPrompt m .promptRunCommand "" "command to run", [Cmd.blink])
  else if k = "K" then
    match selectedSessionRow m with
    | none => ({ m with errMsg := "select a session to kill" }, [])
    | some row =>
      ({ m with confirmKillTarget := row.sessionName, statusMsg := "", errMsg := "" }, [])
  else if k = "A" then
    let m := { m with promptStep := 0, pendingFolder := emptyFolder }
    (openPrompt m .promptAddFolder "" "folder name", [Cmd.blink])
  else if k = "v" then
    match selectedSessionRow m with
    | none => ({ m with errMsg := "select a session to preview" }, [])
    | some _ =>
      let m := { m with detailMode := .detailPreview }
      let r := startPreview m
      (r.1, r.2 ++ [Cmd.previewTick])
  else if k = "e" then
    match selectedFolder m with
    | none => ({ m with errMsg := "select a folder or session" }, [])
    | some folder =>
      let cmd := resolveEditorCommand env m folder
      if cmd = "" then
        ({ m with errMsg := "no editor configured; set editor_command in config or $EDITOR" }, [])
      else
        let dir :=
          match selectedSessionRow m with
          | some row => if row.currentPath ≠ "" then row.currentPath else folder.path
          | none => folder.path
        (m, [Cmd.execEditor cmd dir])
  else if k = "enter" then
    match selectedSessionRow m with
    | none => (m, [])
    | some row =>
      ({ m with statusMsg := "attached to " ++ row.sessionName ++ " (detach with Ctrl-b d)",
                errMsg := "" },
       [Cmd.attach row.sessionName])
  else (m, [])

/-- ui.Model.Update: the modal dispatch (prompt first, then kill
confirmation), the preview-mode key handler, and the message handlers. -/
def update (env : Env) (m : UIModel) (msg : Msg) : UIModel × List Cmd :=
  if m.promptMode ≠ .promptNone then updatePrompt env m msg
  else if m.confirmKillTarget ≠ "" then updateKillConfirm m msg
  else
    match msg with
    | .windowSize w h => ({ m with width := w, height := h }, [])
    | .key k =>
      if m.detailMode = .detailPreview then updatePreview m k else navigateKey env m k
    | .sessionsLoaded sessions err =>
      (match err with
       | some e => ({ m with errMsg := e }, [])
       | none => ({ UIModel.rebuildRows { m with sessions := sessions } with errMsg := "" }, []))
    | .actionResult status err attachTarget =>
      (match err with
       | some e => ({ m with errMsg := e }, [Cmd.loadSessions])
       | none =>
         let r := setStatus m status
         if attachTarget ≠ "" then
           (r.1, [r.2, Cmd.loadSessions, Cmd.attach attachTarget])
         else (r.1, [r.2, Cmd.loadSessions]))
    | .attached err =>
      (match err with
       | some e => ({ m with errMsg := e }, [Cmd.loadSessions])
       | none =>
         let r := setStatus m "detached from session"
         (r.1, [r.2, Cmd.loadSessions]))
    | .paneCaptured _ content err seq =>
      if seq ≠ m.previewSeq then (m, [])
      else
        let m := { m with previewLoading := false }
        (match err with
         | some e => ({ m with previewErr := some e, previewContent := "" }, [])
         | none => ({ m with previewErr := none, previewContent := content }, []))
    | .previewTick =>
      if m.detailMode ≠ .detailPreview then (m, [])
      else (m, [Cmd.capturePane m.previewTarget m.previewSeq, Cmd.previewTick])
    | .folderAdded folder err =>
      (match err with
       | some e => ({ m with errMsg := e }, [])
       | none =>
         let m := UIModel.rebuildRows
           { m with cfg := { m.cfg with folders := m.cfg.folders ++ [folder] } }
         let r := setStatus m ("added folder: " ++ folder.name)
         (r.1, [r.2, Cmd.loadSessions]))
    | .clearStatus seq =>
      (if seq = m.statusSeq then { m with statusMsg := "" } else m, [])
    | .timeTick => (m, [Cmd.tick, Cmd.loadSessions])

/-- ui.NewModel: the zero model with an empty session map, followed by the
initial rebuildRows call. -/
def NewModel (cfg : Config) : UIModel :=
  UIModel.rebuildRows
    { cfg := cfg, width := 0, height := 0, rows := [], selected := 0,
      sessions := fun _ => [], statusMsg := "", statusSeq := 0, errMsg := "",
      filterQuery := "", confirmKillTarget := "", detailScroll := 0,
      detailMode := .detailNormal, previewTarget := "", previewContent := "",
      previewLoading := false, previewErr := none, previewSeq := 0,
      previewZoomed := false, promptValue := "", promptPlaceholder := "",
      promptFocused := false, promptMode := .promptNone, promptStep := 0,
      pendingFolder := emptyFolder }

/-! ## Step relation for the selection-clamp claim: an interleaving of
tree rebuilds (with arbitrary new builder inputs, covering every
rebuildRows call site) and setSelected moves. -/

/-- One step of the rebuild/select interleaving. -/
inductive TreeStep where
  | rebuild (cfg : Config) (sessions : Nat → List GoSession) (filterQuery : String)
  | select (next : Int)

/-- Apply one step to the model. -/
def applyTreeStep (m : UIModel) : TreeStep → UIModel
  | .rebuild cfg sessions q =>
      UIModel.rebuildRows { m with cfg := cfg, sessions := sessions, filterQuery := q }
  | .select n => m.setSelected n

/-- Run a sequence of steps. -/
def runTreeSteps (m : UIModel) (steps : List TreeStep) : UIModel :=
  steps.foldl applyTreeStep m

/-! ## Specification-side definitions and claim predicates -/

/-- The sanitization pipeline as the specification words it: lowercase,
drop slashes, collapse every run of characters outside [a-z0-9] to a
single hyphen (the slugCore loop is exactly that collapse rule), trim
leading and trailing hyphens, and fall back to the literal "session"
when the result is empty. Written to the specification for comparison
with sanitizeLeaf. -/
def specSanitizeLeaf (s : String) : String :=
  let cs := (s.data.map Char.toLower).filter (fun c => c != '/')
  let out := trimEnds (fun c => c == '-') (slugCore cs false)
  if out.isEmpty then "session" else String.mk out

/-- The selection-clamp invariant: the selection is nonnegative and,
whenever the row list is nonempty, strictly below its length. -/
def selClampInv (m : UIModel) : Prop :=
  0 ≤ m.selected ∧ (0 < m.rows.length → m.selected < (m.rows.length : Int))

/-- Ordering relation every built row list is pairwise sorted by:
folder indices are non-decreasing, a folder row is strictly preceded by
lower folder indices, and rows of the same folder are non-decreasing by
session name (a folder row carries the empty session name). -/
def rowOrder (a b : TreeRow) : Prop :=
  a.folderIndex ≤ b.folderIndex ∧
  (b.typeOf = RowType.rowFolder → a.folderIndex < b.folderIndex) ∧
  (a.folderIndex = b.folderIndex → strLe a.sessionName b.sessionName = true)

/-- The per-session filter match of rebuildRows (its third disjunct):
case-insensitive substring match against leaf name, full name or status. -/
def sessionMatchesQ (folder : Folder) (query : String) (s : GoSession) : Bool :=
  containsAny (lowerStr (sessionLeaf folder s)) (lowerStr s.name)
    (lowerStr (sessionStatus s)) query

/-- The local validation failures of the prompt submit path: empty
required values, missing selection, namespace collisions, and bad paths
in add-folder step 1 (empty, unresolvable, missing, or not a directory). -/
def promptValidationFails (env : Env) (m : UIModel) : Prop :=
  let value := trimSpaceStr m.promptValue
  (m.promptMode = .promptNewSession ∧ (selectedFolder m = none ∨ value = "")) ∨
  (m.promptMode = .promptRenameSession ∧ (selectedSessionRow m = none ∨ value = "")) ∨
  (m.promptMode = .promptRunCommand ∧ (selectedSessionRow m = none ∨ value = "")) ∨
  (m.promptMode = .promptAddFolder ∧ m.promptStep = 0 ∧
    (value = "" ∨ Slug value = "" ∨ m.cfg.folders.any (fun f => f.nspace == Slug value) = true)) ∨
  (m.promptMode = .promptAddFolder ∧ m.promptStep = 1 ∧
    (value = "" ∨ env.abs (ExpandHome env.home value) = none ∨
      ∃ p, env.abs (ExpandHome env.home value) = some p ∧ env.statIsDir p ≠ some true))

/-! ## Concrete objects used by witnesses and counterexamples -/

/-- Concrete environment (no home directory, no editor, identity text input). -/
def envW : Env :=
  { nowBase := "20260101-000000", editorEnv := "", home := none,
    abs := fun _ => none, statIsDir := fun _ => none,
    completePath := fun v => v, promptEdit := fun _ v => v }

/-- Concrete base model: the zero model with no folders. -/
def model0 : UIModel :=
  { cfg := { editorCommand := "", folders := [] }, width := 0, height := 0,
    rows := [], selected := 0, sessions := fun _ => [], statusMsg := "",
    statusSeq := 0, errMsg := "", filterQuery := "", confirmKillTarget := "",
    detailScroll := 0, detailMode := .detailNormal, previewTarget := "",
    previewContent := "", previewLoading := false, previewErr := none,
    previewSeq := 0, previewZoomed := false, promptValue := "",
    promptPlaceholder := "", promptFocused := false, promptMode := .promptNone,
    promptStep := 0, pendingFolder := emptyFolder }

/-- Concrete folder used by counterexample models. -/
def fAPI : Folder :=
  { name := "API", path := "/tmp/api", nspace := "api", defaultCommand := "", editorCommand := "" }

/-- Config with three folders, used to build a three-row tree. -/
def cfg3 : Config :=
  { editorCommand := "", folders := [
      { name := "a", path := "/a", nspace := "a", defaultCommand := "", editorCommand := "" },
      { name := "b", path := "/b", nspace := "b", defaultCommand := "", editorCommand := "" },
      { name := "c", path := "/c", nspace := "c", defaultCommand := "", editorCommand := "" } ] }

/-- Model sitting in the new-session prompt over a selected folder row,
with an empty input value. -/
def c2model : UIModel :=
  { model0 with
      cfg := { editorCommand := "", folders := [fAPI] },
      rows := [folderRowOf 0], selected := 0,
      promptMode := .promptNewSession, promptValue := "" }

/-- Model with a pending kill confirmation. -/
def killModel : UIModel := { model0 with confirmKillTarget := "api/one" }

/-- Model with a non-zero detail scroll. -/
def modelScroll5 : UIModel := { model0 with detailScroll := 5 }

/-- Pane record of session api/one that is not the active pane and carries
only an activity flag. -/
def paneInactive : PaneInfo :=
  { sessionName := "api/one", windowIndex := 0, command := "", paneActive := false,
    windowActive := false, paneTitle := "", activityFlag := true, bellFlag := false,
    silenceFlag := false, currentPath := "" }

/-- Active-window active-pane record of session api/one carrying content fields. -/
def paneActiveRec : PaneInfo :=
  { sessionName := "api/one", windowIndex := 0, command := "go", paneActive := true,
    windowActive := true, paneTitle := "t", activityFlag := false, bellFlag := false,
    silenceFlag := false, currentPath := "/tmp/api" }

/-! ## C8: windowing -/

/-- C8: windowAround returns (0,7), (13,20) and a centered 7-row window on
the three quoted inputs, and in general, for 0 < max < total, a window of
exactly max rows inside [0,total] that is flush left near the start, flush
right near the end, and otherwise puts the selection max/2 from its start. -/
theorem windowAround_spec :
    windowAround 0 20 7 = (0, 7) ∧
    windowAround 19 20 7 = (13, 20) ∧
    ((windowAround 10 20 7).2 - (windowAround 10 20 7).1 = 7 ∧
      (windowAround 10 20 7).1 ≤ 10 ∧ 10 < (windowAround 10 20 7).2 ∧
      (windowAround 10 20 7).1 ≠ 0 ∧ (windowAround 10 20 7).2 ≠ 20) ∧
    (∀ selected total maxItems : Int, 0 < maxItems → maxItems < total →
      (windowAround selected total maxItems).2 - (windowAround selected total maxItems).1 = maxItems ∧
      0 ≤ (windowAround selected total maxItems).1 ∧
      (windowAround selected total maxItems).2 ≤ total ∧
      (selected - maxItems / 2 ≤ 0 →
        (windowAround selected total maxItems).1 = 0 ∧
        (windowAround selected total maxItems).2 = maxItems) ∧
      (total ≤ selected - maxItems / 2 + maxItems →
        (windowAround selected total maxItems).2 = total ∧
        (windowAround selected total maxItems).1 = total - maxItems) ∧
      (0 ≤ selected - maxItems / 2 → selected - maxItems / 2 + maxItems ≤ total →
        (windowAround selected total maxItems).1 = selected - maxItems / 2 ∧
        (windowAround selected total maxItems).2 = selected - maxItems / 2 + maxItems)) := by
  refine ⟨by decide, by decide, by decide, ?_⟩
  intro selected total maxItems hmax htot
  have hdiv : 0 ≤ maxItems / 2 ∧ maxItems / 2 ≤ maxItems := by omega
  unfold windowAround
  rw [if_neg (by omega), if_neg (by omega)]
  dsimp only
  split_ifs <;> simp_all <;> omega

/-- Witness for the general clause of windowAround_spec at (3, 20, 7). -/
theorem windowAround_spec_witness :
    (0 : Int) < 7 ∧ (7 : Int) < 20 ∧
      (windowAround 3 20 7).2 - (windowAround 3 20 7).1 = 7 :=
  ⟨by decide, by decide, (windowAround_spec.2.2.2 3 20 7 (by decide) (by decide)).1⟩

/-! ## C6: stale preview capture results -/

/-- C6: a pane-capture result whose sequence number differs from the
current preview sequence leaves the whole model unchanged and issues no
command, in every interaction mode. -/
theorem stale_preview_capture_ignored (env : Env) (m : UIModel)
    (target content : String) (err : Option String) (seq : Int)
    (h : seq ≠ m.previewSeq) :
    update env m (.paneCaptured target content err seq) = (m, []) := by
  unfold update
  split
  · rfl
  · split
    · rfl
    · show (if seq ≠ m.previewSeq then (m, ([] : List Cmd)) else _) = (m, [])
      rw [if_pos h]

/-- Witness: a stale capture with sequence 1 against preview sequence 0. -/
theorem stale_preview_capture_ignored_witness :
    (1 : Int) ≠ model0.previewSeq ∧
      update envW model0 (.paneCaptured "t" "x" none 1) = (model0, []) :=
  ⟨by decide, stale_preview_capture_ignored envW model0 "t" "x" none 1 (by decide)⟩

/-! ## C10: detail scroll reset on rebuild -/

/-- Counterexample to C10 as stated: a fetch completion that carries an
error does not rebuild, so a non-zero detail scroll survives it. -/
theorem detail_scroll_survives_failed_fetch :
    (update envW modelScroll5 (.sessionsLoaded (fun _ => []) (some "fetch failed"))).1.detailScroll = 5 ∧
    (5 : Int) ≠ 0 := by
  constructor
  · rfl
  · decide

/-- C10 amended: every rebuild unconditionally resets the detail scroll to
zero, and a successful fetch completion processed outside the prompt and
kill-confirmation modals leaves it zero; only a failed fetch can keep a
non-zero value. -/
theorem rebuild_resets_detail_scroll :
    (∀ m : UIModel, (UIModel.rebuildRows m).detailScroll = 0) ∧
    (∀ (env : Env) (m : UIModel) (smap : Nat → List GoSession),
      m.promptMode = .promptNone → m.confirmKillTarget = "" →
      (update env m (.sessionsLoaded smap none)).1.detailScroll = 0) := by
  refine ⟨fun m => rfl, ?_⟩
  intro env m smap h1 h2
  unfold update
  rw [if_neg (by simp [h1]), if_neg (by simp [h2])]
  rfl

/-- Witness for rebuild_resets_detail_scroll on a concrete model. -/
theorem rebuild_resets_detail_scroll_witness :
    model0.promptMode = .promptNone ∧ model0.confirmKillTarget = "" ∧
      (update envW model0 (.sessionsLoaded (fun _ => []) none)).1.detailScroll = 0 :=
  ⟨rfl, rfl, rebuild_resets_detail_scroll.2 envW model0 (fun _ => []) rfl rfl⟩

/-! ## C1: selection clamp -/

/-- Every rebuild re-establishes the selection-clamp invariant,
regardless of the previous state. -/
theorem rebuildRows_selClampInv (m : UIModel) : selClampInv m.rebuildRows := by
  unfold UIModel.rebuildRows selClampInv
  dsimp only
  split_ifs <;> constructor <;> intros <;> omega

/-- Every setSelected re-establishes the selection-clamp invariant. -/
theorem setSelected_selClampInv (m : UIModel) (n : Int) : selClampInv (m.setSelected n) := by
  unfold UIModel.setSelected selClampInv
  by_cases h0 : m.rows.length = 0
  · rw [if_pos h0]
    refine ⟨le_refl 0, ?_⟩
    dsimp only
    omega
  · rw [if_neg h0]
    dsimp only
    constructor <;> split_ifs <;> omega

/-- Every step of the rebuild/select interleaving re-establishes the invariant. -/
theorem applyTreeStep_selClampInv (m : UIModel) (s : TreeStep) :
    selClampInv (applyTreeStep m s) := by
  cases s with
  | rebuild cfg sessions q => exact rebuildRows_selClampInv _
  | select n => exact setSelected_selClampInv _ _

/-- Running any step sequence preserves the selection-clamp invariant. -/
theorem runTreeSteps_selClampInv (steps : List TreeStep) :
    ∀ m : UIModel, selClampInv m → selClampInv (runTreeSteps m steps) := by
  induction steps with
  | nil => exact fun m h => h
  | cons s rest ih =>
    intro m _
    rw [runTreeSteps, List.foldl_cons]
    exact ih _ (applyTreeStep_selClampInv m s)

/-- Counterexample to C1 as stated: from a three-row tree with selection 2,
a rebuild that empties the row list leaves the selection at 2, not 0. -/
theorem selection_not_reset_on_empty_rebuild :
    (runTreeSteps (NewModel cfg3)
      [TreeStep.select 2,
       TreeStep.rebuild { editorCommand := "", folders := [] } (fun _ => []) ""]).rows = [] ∧
    (runTreeSteps (NewModel cfg3)
      [TreeStep.select 2,
       TreeStep.rebuild { editorCommand := "", folders := [] } (fun _ => []) ""]).selected = 2 := by
  constructor <;> rfl

/-- C1 amended: along every sequence of rebuilds and setSelected moves the
selection stays nonnegative and, whenever the row list is nonempty, inside
[0, len(rows)-1]; setSelected forces the selection to 0 while the row list
is empty, but a rebuild that produces an empty row list leaves a previous
positive selection unchanged rather than resetting it to 0. -/
theorem selection_clamp_invariant :
    (∀ (cfg : Config) (steps : List TreeStep), selClampInv (runTreeSteps (NewModel cfg) steps)) ∧
    (∀ (m : UIModel) (n : Int), m.rows = [] → (m.setSelected n).selected = 0) := by
  constructor
  · intro cfg steps
    exact runTreeSteps_selClampInv steps _ (rebuildRows_selClampInv _)
  · intro m n h
    unfold UIModel.setSelected
    rw [if_pos (by simp [h])]

/-- Witness: the invariant after a concrete rebuild/select run, and a
setSelected on an empty row list. -/
theorem selection_clamp_invariant_witness :
    selClampInv (runTreeSteps (NewModel cfg3) [TreeStep.select 2]) ∧
      model0.rows = [] ∧ (model0.setSelected 7).selected = 0 :=
  ⟨selection_clamp_invariant.1 cfg3 [TreeStep.select 2], rfl,
    selection_clamp_invariant.2 model0 7 rfl⟩

/-! ## C7: kill confirmation -/

/-- Counterexample to C7 as stated: the key "Y" is none of y, enter, n,
escape, yet it clears the target and issues the kill (key matching is
case-insensitive). -/
theorem kill_confirm_uppercase_confirms :
    ("Y" ≠ "y" ∧ "Y" ≠ "enter" ∧ "Y" ≠ "n" ∧ "Y" ≠ "esc") ∧
    (update envW killModel (.key "Y")).1.confirmKillTarget = "" ∧
    (update envW killModel (.key "Y")).2 = [Cmd.killSession "api/one"] := by
  refine ⟨by decide, ?_, ?_⟩ <;> rfl

/-- C7 amended: with a non-empty kill target (and no prompt open), a key
whose lowercasing is y or enter clears the target and issues a kill against
exactly the stored name; a key lowercasing to n or esc clears the target and
sets the cancelled status without a kill; every other key leaves the model
unchanged; and a kill outcome message always triggers a fresh session fetch,
for success and failure alike. -/
theorem kill_confirm_transitions :
    (∀ (env : Env) (m : UIModel) (k : String),
      m.promptMode = .promptNone → m.confirmKillTarget ≠ "" →
      ((lowerStr k = "y" ∨ lowerStr k = "enter") →
        update env m (.key k) =
          ({ m with confirmKillTarget := "" }, [Cmd.killSession m.confirmKillTarget])) ∧
      ((lowerStr k = "n" ∨ lowerStr k = "esc") →
        update env m (.key k) =
          ({ m with confirmKillTarget := "", statusMsg := "kill cancelled", errMsg := "",
                    statusSeq := m.statusSeq + 1 },
           [Cmd.clearStatusAfter (m.statusSeq + 1)])) ∧
      (lowerStr k ≠ "y" → lowerStr k ≠ "enter" → lowerStr k ≠ "n" → lowerStr k ≠ "esc" →
        update env m (.key k) = (m, []))) ∧
    (∀ (env : Env) (m : UIModel) (status : String) (err : Option String) (tgt : String),
      m.promptMode = .promptNone → m.confirmKillTarget = "" →
      Cmd.loadSessions ∈ (update env m (.actionResult status err tgt)).2) := by
  constructor
  · intro env m k h1 h2
    have hd : update env m (.key k) = updateKillConfirm m (.key k) := by
      unfold update
      rw [if_neg (by simp [h1]), if_pos h2]
    refine ⟨?_, ?_, ?_⟩
    · intro hy
      rw [hd]
      simp only [updateKillConfirm]
      rw [if_pos hy]
    · intro hn
      have hny : ¬(lowerStr k = "y" ∨ lowerStr k = "enter") := by
        rcases hn with h | h <;> rw [h] <;> decide
      rw [hd]
      simp only [updateKillConfirm]
      rw [if_neg hny, if_pos hn]
      rfl
    · intro hy he hnn hesc
      rw [hd]
      simp only [updateKillConfirm]
      rw [if_neg (by tauto), if_neg (by tauto)]
  · intro env m status err tgt h1 h2
    unfold update
    rw [if_neg (by simp [h1]), if_neg (by simp [h2])]
    dsimp only
    cases err with
    | some e => simp
    | none =>
      dsimp only
      split_ifs <;> simp

/-- Witness: confirming with y on a concrete model kills the stored target. -/
theorem kill_confirm_transitions_witness :
    killModel.promptMode = .promptNone ∧ killModel.confirmKillTarget ≠ "" ∧
      update envW killModel (.key "y") =
        ({ killModel with confirmKillTarget := "" }, [Cmd.killSession "api/one"]) :=
  ⟨rfl, by decide,
    (kill_confirm_transitions.1 envW killModel "y" rfl (by decide)).1 (Or.inl (by decide))⟩

/-! ## C2: prompt validation failures -/

/-- A string with a nonempty left part of an append is nonempty. -/
theorem str_append_ne_empty (s t : String) (h : s ≠ "") : s ++ t ≠ "" := by
  intro hc
  apply h
  have hd := congrArg String.data hc
  rw [String.data_append] at hd
  rcases List.append_eq_nil.mp hd with ⟨h1, _⟩
  exact String.ext h1

/-- Counterexample to C2 as stated: submitting an empty new-session name
sets an error and dispatches nothing, but the prompt does not stay in
promptNewSession: updatePrompt resets promptMode to promptNone before
validating, so the prompt closes. -/
theorem prompt_closes_on_validation_failure :
    c2model.promptMode = .promptNewSession ∧
    (update envW c2model (.key "enter")).1.errMsg ≠ "" ∧
    (update envW c2model (.key "enter")).2 = [] ∧
    (update envW c2model (.key "enter")).1.promptMode ≠ c2model.promptMode := by
  refine ⟨rfl, by decide, rfl, by decide⟩

/-- C2 amended: on every local validation failure of a prompt submission
(empty required value, missing selection, empty or colliding namespace in
add-folder step 0, empty, unresolvable, missing or non-directory path in
add-folder step 1) no asynchronous command is dispatched and an error
message is set; the multi-step state (promptStep, pendingFolder) is
untouched, but the prompt closes (promptMode becomes promptNone) instead
of staying at its pre-submission value. -/
theorem prompt_validation_failure_no_dispatch (env : Env) (m : UIModel)
    (h : promptValidationFails env m) :
    (update env m (.key "enter")).2 = [] ∧
    (update env m (.key "enter")).1.errMsg ≠ "" ∧
    (update env m (.key "enter")).1.promptMode = .promptNone ∧
    (update env m (.key "enter")).1.promptStep = m.promptStep ∧
    (update env m (.key "enter")).1.pendingFolder = m.pendingFolder := by
  unfold promptValidationFails at h
  have hmm : m.promptMode ≠ .promptNone := by
    rcases h with ⟨h, _⟩ | ⟨h, _⟩ | ⟨h, _⟩ | ⟨h, _, _⟩ | ⟨h, _, _⟩ <;> rw [h] <;> decide
  have hd : update env m (.key "enter") =
      promptSubmit env { m with promptFocused := false, promptMode := .promptNone }
        m.promptMode (trimSpaceStr m.promptValue) := by
    unfold update
    rw [if_pos hmm]
    simp [updatePrompt]
  rcases h with ⟨hmode, hc⟩ | ⟨hmode, hc⟩ | ⟨hmode, hc⟩ | ⟨hmode, hstep, hc⟩ | ⟨hmode, hstep, hc⟩
  · -- new session
    rw [hmode] at hd
    rcases hc with hsel | hval
    · have hsel' : selectedFolder
          { m with promptFocused := false, promptMode := .promptNone } = none := hsel
      rw [hd]
      simp only [promptSubmit]
      rw [hsel']
      exact ⟨rfl, by simp, rfl, rfl, rfl⟩
    · rw [hval] at hd
      rw [hd]
      simp only [promptSubmit]
      cases hsel : selectedFolder { m with promptFocused := false, promptMode := .promptNone } with
      | none => exact ⟨rfl, by simp, rfl, rfl, rfl⟩
      | some folder =>
        exact ⟨rfl, by simp, rfl, rfl, rfl⟩
  · -- rename
    rw [hmode] at hd
    rcases hc with hsel | hval
    · have hsel' : selectedSessionRow
          { m with promptFocused := false, promptMode := .promptNone } = none := hsel
      rw [hd]
      simp only [promptSubmit]
      rw [hsel']
      exact ⟨rfl, by simp, rfl, rfl, rfl⟩
    · rw [hval] at hd
      rw [hd]
      simp only [promptSubmit]
      cases hsel : selectedSessionRow { m with promptFocused := false, promptMode := .promptNone } with
      | none => exact ⟨rfl, by simp, rfl, rfl, rfl⟩
      | some row =>
        exact ⟨rfl, by simp, rfl, rfl, rfl⟩
  · -- run command
    rw [hmode] at hd
    rcases hc with hsel | hval
    · have hsel' : selectedSessionRow
          { m with promptFocused := false, promptMode := .promptNone } = none := hsel
      rw [hd]
      simp only [promptSubmit]
      rw [hsel']
      exact ⟨rfl, by simp, rfl, rfl, rfl⟩
    · rw [hval] at hd
      rw [hd]
      simp only [promptSubmit]
      cases hsel : selectedSessionRow { m with promptFocused := false, promptMode := .promptNone } with
      | none => exact ⟨rfl, by simp, rfl, rfl, rfl⟩
      | some row =>
        exact ⟨rfl, by simp, rfl, rfl, rfl⟩
  · -- add folder, step 0
    rw [hmode] at hd
    rw [hd]
    simp only [promptSubmit]
    have hstep' : ({ m with
        promptFocused := false, promptMode := .promptNone } : UIModel).promptStep = 0 := hstep
    rw [if_pos hstep']
    by_cases hval : trimSpaceStr m.promptValue = ""
    · rw [if_pos hval]
      exact ⟨rfl, by simp, rfl, rfl, rfl⟩
    · rw [if_neg hval]
      by_cases hslug : Slug (trimSpaceStr m.promptValue) = ""
      · rw [if_pos hslug]
        exact ⟨rfl, by simp, rfl, rfl, rfl⟩
      · rw [if_neg hslug]
        have hcol : (({ m with
            promptFocused := false, promptMode := .promptNone } : UIModel).cfg.folders.any
              (fun f => f.nspace == Slug (trimSpaceStr m.promptValue))) = true := by
          rcases hc with hc | hc | hc
          · exact absurd hc hval
          · exact absurd hc hslug
          · exact hc
        rw [if_pos hcol]
        refine ⟨rfl, ?_, rfl, rfl, rfl⟩
        simp only []
        exact str_append_ne_empty _ _ (str_append_ne_empty _ _ (by decide))
  · -- add folder, step 1
    rw [hmode] at hd
    rw [hd]
    simp only [promptSubmit]
    have hstep0 : ¬ ({ m with
        promptFocused := false, promptMode := .promptNone } : UIModel).promptStep = 0 := by
      show ¬ m.promptStep = 0
      omega
    have hstep' : ({ m with
        promptFocused := false, promptMode := .promptNone } : UIModel).promptStep = 1 := hstep
    rw [if_neg hstep0, if_pos hstep']
    by_cases hval : trimSpaceStr m.promptValue = ""
    · rw [if_pos hval]
      exact ⟨rfl, by simp, rfl, rfl, rfl⟩
    · rw [if_neg hval]
      rcases hc with hc | hc | hc
      · exact absurd hc hval
      · rw [hc]
        exact ⟨rfl, by simp, rfl, rfl, rfl⟩
      · obtain ⟨p, habs, hstat⟩ := hc
        rw [habs]
        dsimp only
        cases hst : env.statIsDir p with
        | none => exact ⟨rfl, by simp, rfl, rfl, rfl⟩
        | some b =>
          cases b with
          | false => exact ⟨rfl, by simp, rfl, rfl, rfl⟩
          | true => exact absurd hst hstat

/-- Witness: submitting an empty new-session name over a selected folder. -/
theorem prompt_validation_failure_no_dispatch_witness :
    promptValidationFails envW c2model ∧
      (update envW c2model (.key "enter")).2 = [] ∧
      (update envW c2model (.key "enter")).1.promptMode = .promptNone :=
  have hfail : promptValidationFails envW c2model := Or.inl ⟨rfl, Or.inr rfl⟩
  ⟨hfail, (prompt_validation_failure_no_dispatch envW c2model hfail).1,
    (prompt_validation_failure_no_dispatch envW c2model hfail).2.2.1⟩

/-! ## C3: pane-state aggregation -/

/-- Counterexample to C3 as stated: when the flag-only non-active record
comes first, its activity flag is dropped — the loop only persists a
record when it is the active one or the session already has an entry, so
the aggregation is not order-independent. -/
theorem active_pane_states_order_dependent :
    paneInactive.activityFlag = true ∧
    paneActiveRec.sessionName = paneInactive.sessionName ∧
    ((ActivePaneStates [paneInactive, paneActiveRec]).lookup "api/one").map
        (fun st => st.activityFlag) = some false := by
  refine ⟨rfl, rfl, ?_⟩
  decide

/-- Setting the bell flag conditionally is the same as or-ing it in. -/
theorem flag_ite_bell (x : Bool) (s : ActivePaneState) :
    (if x then { s with bellFlag := true } else s) = { s with bellFlag := s.bellFlag || x } := by
  cases x <;> simp

/-- Setting the activity flag conditionally is the same as or-ing it in. -/
theorem flag_ite_activity (x : Bool) (s : ActivePaneState) :
    (if x then { s with activityFlag := true } else s) =
      { s with activityFlag := s.activityFlag || x } := by
  cases x <;> simp

/-- Setting the silence flag conditionally is the same as or-ing it in. -/
theorem flag_ite_silence (x : Bool) (s : ActivePaneState) :
    (if x then { s with silenceFlag := true } else s) =
      { s with silenceFlag := s.silenceFlag || x } := by
  cases x <;> simp

/-- C3 amended: for a session whose active (window and pane both active)
record comes first, followed by a non-active record of the same session,
the per-session state carries the content fields of the active record and
the union of the alert flags of both records; flags from records that
precede the session's first persisted (active) record are dropped, and a
session with no active record never appears. -/
theorem active_pane_states_active_first_union (a b : PaneInfo)
    (ha : a.windowActive = true) (hpa : a.paneActive = true)
    (hs : b.sessionName = a.sessionName)
    (hb : (b.windowActive && b.paneActive) = false) :
    (ActivePaneStates [a, b]).lookup a.sessionName = some
      { command := a.command,
        paneTitle := stripTitleBranding (trimSpaceStr a.paneTitle),
        currentPath := a.currentPath,
        bellFlag := a.bellFlag || b.bellFlag,
        activityFlag := a.activityFlag || b.activityFlag,
        silenceFlag := a.silenceFlag || b.silenceFlag } := by
  unfold ActivePaneStates
  rw [List.foldl_cons, List.foldl_cons, List.foldl_nil]
  have step1 : activePaneStep [] a =
      [(a.sessionName,
        { command := a.command,
          paneTitle := stripTitleBranding (trimSpaceStr a.paneTitle),
          currentPath := a.currentPath,
          bellFlag := a.bellFlag, activityFlag := a.activityFlag,
          silenceFlag := a.silenceFlag })] := by
    unfold activePaneStep
    rw [ha, hpa]
    cases a.bellFlag <;> cases a.activityFlag <;> cases a.silenceFlag <;>
      simp [assocInsert, emptyActivePaneState]
  rw [step1]
  unfold activePaneStep
  rw [hs, hb]
  cases b.bellFlag <;> cases b.activityFlag <;> cases b.silenceFlag <;>
    simp [assocInsert, List.lookup]

/-- Witness: the two concrete pane records with the active one first. -/
theorem active_pane_states_active_first_union_witness :
    paneActiveRec.windowActive = true ∧ paneActiveRec.paneActive = true ∧
    paneInactive.sessionName = paneActiveRec.sessionName ∧
    (paneInactive.windowActive && paneInactive.paneActive) = false ∧
    (ActivePaneStates [paneActiveRec, paneInactive]).lookup paneActiveRec.sessionName = some
      { command := paneActiveRec.command,
        paneTitle := stripTitleBranding (trimSpaceStr paneActiveRec.paneTitle),
        currentPath := paneActiveRec.currentPath,
        bellFlag := paneActiveRec.bellFlag || paneInactive.bellFlag,
        activityFlag := paneActiveRec.activityFlag || paneInactive.activityFlag,
        silenceFlag := paneActiveRec.silenceFlag || paneInactive.silenceFlag } :=
  ⟨rfl, rfl, rfl, rfl,
    active_pane_states_active_first_union paneActiveRec paneInactive rfl rfl rfl rfl⟩

/-! ## C4: row ordering — order lemmas for the session sort -/

/-- The lexicographic order is irreflexive. -/
theorem charListLt_irrefl (l : List Char) : charListLt l l = false := by
  induction l with
  | nil => rfl
  | cons a as ih => simp [charListLt, ih]

/-- The lexicographic order is transitive. -/
theorem charListLt_trans : ∀ (a b c : List Char),
    charListLt a b = true → charListLt b c = true → charListLt a c = true
  | [], [], _, h, _ => by simp [charListLt] at h
  | [], _ :: _, [], _, h => by simp [charListLt] at h
  | [], _ :: _, _ :: _, _, _ => by simp [charListLt]
  | _ :: _, [], _, h, _ => by simp [charListLt] at h
  | _ :: _, _ :: _, [], _, h => by simp [charListLt] at h
  | a :: as, b :: bs, c :: cs, h1, h2 => by
    simp only [charListLt] at h1 h2 ⊢
    rcases lt_trichotomy a b with hab | hab | hab
    · rcases lt_trichotomy b c with hbc | hbc | hbc
      · simp [lt_trans hab hbc]
      · subst hbc
        simp [hab]
      · simp [hab, not_lt_of_lt hab] at h1
        simp [hbc, not_lt_of_lt hbc] at h2
    · subst hab
      rcases lt_trichotomy a c with hac | hac | hac
      · simp [hac]
      · subst hac
        simp [lt_irrefl] at h1 h2 ⊢
        exact charListLt_trans as bs cs h1 h2
      · simp [lt_irrefl] at h1
        simp [hac, not_lt_of_lt hac] at h2
    · simp [hab, not_lt_of_lt hab] at h1

/-- Two lists neither of which is lexicographically below the other are equal. -/
theorem charListLt_connex : ∀ (a b : List Char),
    charListLt a b = false → charListLt b a = false → a = b
  | [], [], _, _ => rfl
  | [], _ :: _, h, _ => by simp [charListLt] at h
  | _ :: _, [], _, h => by simp [charListLt] at h
  | a :: as, b :: bs, h1, h2 => by
    simp only [charListLt] at h1 h2
    rcases lt_trichotomy a b with hab | hab | hab
    · simp [hab] at h1
    · subst hab
      simp only [lt_irrefl, if_false] at h1 h2
      rw [charListLt_connex as bs h1 h2]
    · simp [hab] at h2

/-- The session order of rebuildRows is transitive. -/
theorem sessionLe_trans (a b c : GoSession) (h1 : sessionLe a b = true)
    (h2 : sessionLe b c = true) : sessionLe a c = true := by
  unfold sessionLe strLt at h1 h2 ⊢
  rw [Bool.not_eq_true'] at h1 h2 ⊢
  by_cases hca : charListLt c.name.data a.name.data = true
  · by_cases hab : charListLt a.name.data b.name.data = true
    · have := charListLt_trans _ _ _ hca hab
      rw [this] at h2
      exact absurd h2 (by simp)
    · have heq := charListLt_connex _ _ (by simpa using hab) h1
      rw [heq] at hca
      rw [hca] at h2
      exact absurd h2 (by simp)
  · simpa using hca

/-- The session order of rebuildRows is total. -/
theorem sessionLe_total (a b : GoSession) : sessionLe a b = true ∨ sessionLe b a = true := by
  unfold sessionLe strLt
  by_cases h1 : charListLt b.name.data a.name.data = true
  · right
    by_cases h2 : charListLt a.name.data b.name.data = true
    · have := charListLt_trans _ _ _ h1 h2
      rw [charListLt_irrefl] at this
      exact absurd this (by simp)
    · simpa using h2
  · left
    simpa using h1

/-! ## C4: insertion-sort lemmas -/

/-- Membership in an insertion step. -/
theorem mem_insertLe {α : Type} (le : α → α → Bool) (a x : α) (l : List α) :
    x ∈ insertLe le a l ↔ x = a ∨ x ∈ l := by
  induction l with
  | nil => simp [insertLe]
  | cons b bs ih =>
    simp only [insertLe]
    split
    · simp [List.mem_cons]
    · simp only [List.mem_cons, ih]
      tauto

/-- Membership through the insertion sort. -/
theorem mem_sortLe {α : Type} (le : α → α → Bool) (x : α) (l : List α) :
    x ∈ sortLe le l ↔ x ∈ l := by
  induction l with
  | nil => simp [sortLe]
  | cons a as ih => simp [sortLe, mem_insertLe, ih, List.mem_cons]

/-- Insertion preserves sortedness for a transitive total Bool relation. -/
theorem pairwise_insertLe {α : Type} (le : α → α → Bool)
    (htrans : ∀ a b c, le a b = true → le b c = true → le a c = true)
    (htotal : ∀ a b, le a b = true ∨ le b a = true)
    (a : α) (l : List α) (h : l.Pairwise (fun x y => le x y = true)) :
    (insertLe le a l).Pairwise (fun x y => le x y = true) := by
  induction l with
  | nil => simp [insertLe]
  | cons b bs ih =>
    rcases List.pairwise_cons.mp h with ⟨hb, hbs⟩
    simp only [insertLe]
    split
    case isTrue hab =>
      refine List.pairwise_cons.mpr ⟨?_, h⟩
      intro y hy
      rcases List.mem_cons.mp hy with rfl | hy
      · exact hab
      · exact htrans a b y hab (hb y hy)
    case isFalse hab =>
      have hba : le b a = true := by
        rcases htotal a b with hx | hx
        · exact absurd hx hab
        · exact hx
      refine List.pairwise_cons.mpr ⟨?_, ih hbs⟩
      intro y hy
      rcases (mem_insertLe le a y bs).mp hy with rfl | hy
      · exact hba
      · exact hb y hy

/-- The insertion sort is sorted for a transitive total Bool relation. -/
theorem pairwise_sortLe {α : Type} (le : α → α → Bool)
    (htrans : ∀ a b c, le a b = true → le b c = true → le a c = true)
    (htotal : ∀ a b, le a b = true ∨ le b a = true)
    (l : List α) : (sortLe le l).Pairwise (fun x y => le x y = true) := by
  induction l with
  | nil => exact List.Pairwise.nil
  | cons a as ih => exact pairwise_insertLe le htrans htotal a (sortLe le as) ih

/-! ## C4: structural lemmas about the built row list -/

/-- Every row of a matchedRows list is a session row of its folder index. -/
theorem mem_matchedRows {folder : Folder} {fi : Nat} {sessions : List GoSession}
    {query : String} {r : TreeRow} :
    r ∈ matchedRows folder fi sessions query ↔
      ∃ s, s ∈ sessions ∧
        sessionIncluded folder (folderMatchesQ folder query) query s = true ∧
        r = sessionRowOf folder fi s := by
  unfold matchedRows
  simp only [List.mem_map, List.mem_filter, mem_sortLe, sortSessions]
  constructor
  · rintro ⟨s, ⟨hmem, hincl⟩, rfl⟩
    exact ⟨s, hmem, hincl, rfl⟩
  · rintro ⟨s, hmem, hincl, rfl⟩
    exact ⟨s, ⟨hmem, hincl⟩, rfl⟩

/-- Every row of a folder chunk carries the chunk's folder index. -/
theorem chunk_folderIndex {fi : Nat} {folder : Folder} {ss : List GoSession}
    {q : String} {r : TreeRow} (h : r ∈ folderChunk fi folder ss q) :
    r.folderIndex = fi := by
  unfold folderChunk at h
  dsimp only at h
  split at h
  · cases h
  · rcases List.mem_cons.mp h with rfl | h
    · rfl
    · rcases mem_matchedRows.mp h with ⟨s, _, _, rfl⟩
      rfl

/-- Rows produced from folder index fi0 onward carry indices at least fi0. -/
theorem aux_folderIndex_ge {smap : Nat → List GoSession} {q : String} :
    ∀ (folders : List Folder) (fi0 : Nat) (r : TreeRow),
      r ∈ buildRowsAux smap q folders fi0 → fi0 ≤ r.folderIndex := by
  intro folders
  induction folders with
  | nil => intro fi0 r h; cases h
  | cons f rest ih =>
    intro fi0 r h
    rcases List.mem_append.mp h with h | h
    · exact le_of_eq (chunk_folderIndex h).symm
    · exact le_trans (Nat.le_succ fi0) (ih (fi0 + 1) r h)

/-- The empty session name is below every name. -/
theorem strLe_empty_left (s : String) : strLe "" s = true := by
  unfold strLe strLt
  cases h : s.data with
  | nil => rfl
  | cons c cs => rfl

/-- One folder chunk is pairwise ordered. -/
theorem chunk_pairwise (fi : Nat) (folder : Folder) (ss : List GoSession) (q : String) :
    (folderChunk fi folder ss q).Pairwise rowOrder := by
  unfold folderChunk
  dsimp only
  split
  · exact List.Pairwise.nil
  · have hmatched : (matchedRows folder fi ss q).Pairwise rowOrder := by
      unfold matchedRows
      rw [List.pairwise_map]
      have hsorted := pairwise_sortLe sessionLe sessionLe_trans sessionLe_total ss
      have hfiltered := hsorted.filter
        (sessionIncluded folder (folderMatchesQ folder q) q)
      refine hfiltered.imp ?_
      intro s t hle
      refine ⟨le_refl fi, ?_, ?_⟩
      · intro hb
        cases hb
      · intro _
        exact hle
    refine List.pairwise_cons.mpr ⟨?_, hmatched⟩
    intro b hb
    rcases mem_matchedRows.mp hb with ⟨s, _, _, rfl⟩
    refine ⟨le_refl fi, ?_, ?_⟩
    · intro hb
      cases hb
    · intro _
      exact strLe_empty_left _

/-- The whole built row list is pairwise ordered. -/
theorem aux_pairwise (smap : Nat → List GoSession) (q : String) :
    ∀ (folders : List Folder) (fi0 : Nat),
      (buildRowsAux smap q folders fi0).Pairwise rowOrder := by
  intro folders
  induction folders with
  | nil => intro fi0; exact List.Pairwise.nil
  | cons f rest ih =>
    intro fi0
    refine List.pairwise_append.mpr ⟨chunk_pairwise fi0 f (smap fi0) q, ih (fi0 + 1), ?_⟩
    intro a ha b hb
    have h1 : a.folderIndex = fi0 := chunk_folderIndex ha
    have h2 : fi0 + 1 ≤ b.folderIndex := aux_folderIndex_ge rest (fi0 + 1) b hb
    exact ⟨by omega, fun _ => by omega, fun h => by omega⟩

/-- The first row of a built row list, when present, is a folder row. -/
theorem aux_head_folder {smap : Nat → List GoSession} {q : String} :
    ∀ (folders : List Folder) (fi0 : Nat) (r : TreeRow),
      (buildRowsAux smap q folders fi0).head? = some r → r.typeOf = RowType.rowFolder := by
  intro folders
  induction folders with
  | nil => intro fi0 r h; cases h
  | cons f rest ih =>
    intro fi0 r h
    rw [buildRowsAux, List.head?_append] at h
    unfold folderChunk at h
    dsimp only at h
    split at h
    · simp only [List.head?, Option.none_or] at h
      exact ih (fi0 + 1) r h
    · simp only [List.head?, Option.or_some] at h
      cases h
      rfl

/-- Adjacent rows: a session row always directly follows a row of its folder. -/
theorem aux_chain (smap : Nat → List GoSession) (q : String) :
    ∀ (folders : List Folder) (fi0 : Nat),
      (buildRowsAux smap q folders fi0).Chain'
        (fun a b => b.typeOf = RowType.rowSession → a.folderIndex = b.folderIndex) := by
  intro folders
  induction folders with
  | nil => intro fi0; exact List.chain'_nil
  | cons f rest ih =>
    intro fi0
    rw [buildRowsAux]
    refine List.chain'_append.mpr ⟨?_, ih (fi0 + 1), ?_⟩
    · refine List.Pairwise.chain' ?_
      refine List.pairwise_of_forall_mem_list ?_
      intro a ha b hb _
      rw [chunk_folderIndex ha, chunk_folderIndex hb]
    · intro x hx y hy _
      have : y.typeOf = RowType.rowFolder :=
        aux_head_folder rest (fi0 + 1) y (Option.mem_def.mp hy)
      simp_all

/-- C4: the rebuilt row list has folder rows in registry order, session
rows non-decreasing by full session name within each folder, every session
row directly preceded by a row of its own folder, and a folder row first. -/
theorem tree_row_ordering (m : UIModel) :
    (UIModel.rebuildRows m).rows.Pairwise
      (fun a b => a.typeOf = RowType.rowFolder → b.typeOf = RowType.rowFolder →
        a.folderIndex < b.folderIndex) ∧
    (UIModel.rebuildRows m).rows.Pairwise
      (fun a b => a.folderIndex = b.folderIndex → strLe a.sessionName b.sessionName = true) ∧
    (UIModel.rebuildRows m).rows.Chain'
      (fun a b => b.typeOf = RowType.rowSession → a.folderIndex = b.folderIndex) ∧
    (∀ r, (UIModel.rebuildRows m).rows.head? = some r → r.typeOf = RowType.rowFolder) := by
  have hrows : (UIModel.rebuildRows m).rows =
      buildRowsAux m.sessions (lowerStr (trimSpaceStr m.filterQuery)) m.cfg.folders 0 := rfl
  rw [hrows]
  have hpw := aux_pairwise m.sessions (lowerStr (trimSpaceStr m.filterQuery)) m.cfg.folders 0
  refine ⟨?_, ?_, ?_, ?_⟩
  · exact hpw.imp (fun h _ hb => h.2.1 hb)
  · exact hpw.imp (fun h he => h.2.2 he)
  · exact aux_chain m.sessions (lowerStr (trimSpaceStr m.filterQuery)) m.cfg.folders 0
  · exact fun r => aux_head_folder m.cfg.folders 0 r

/-- Witness: the ordering facts at a concrete rebuilt model. -/
theorem tree_row_ordering_witness :
    (UIModel.rebuildRows { model0 with cfg := cfg3 }).rows.Pairwise
      (fun a b => a.typeOf = RowType.rowFolder → b.typeOf = RowType.rowFolder →
        a.folderIndex < b.folderIndex) :=
  (tree_row_ordering { model0 with cfg := cfg3 }).1

/-! ## C5: filter inclusion -/

/-- Every built row comes from the chunk of its folder index. -/
theorem mem_chunk_of_mem_aux {smap : Nat → List GoSession} {q : String} :
    ∀ {folders : List Folder} {fi0 : Nat} {r : TreeRow},
      r ∈ buildRowsAux smap q folders fi0 →
      ∃ j f, folders[j]? = some f ∧ r ∈ folderChunk (fi0 + j) f (smap (fi0 + j)) q := by
  intro folders
  induction folders with
  | nil =>
    intro fi0 r h
    cases h
  | cons f rest ih =>
    intro fi0 r h
    rcases List.mem_append.mp h with h | h
    · exact ⟨0, f, by simp, by simpa using h⟩
    · obtain ⟨j, f', hj, hr⟩ := ih h
      refine ⟨j + 1, f', by simpa using hj, ?_⟩
      have harith : fi0 + (j + 1) = fi0 + 1 + j := by omega
      rw [harith]
      exact hr

/-- A row of a folder chunk is a row of the built list. -/
theorem mem_aux_of_mem_chunk {smap : Nat → List GoSession} {q : String} :
    ∀ {folders : List Folder} {fi0 j : Nat} {f : Folder} {r : TreeRow},
      folders[j]? = some f → r ∈ folderChunk (fi0 + j) f (smap (fi0 + j)) q →
      r ∈ buildRowsAux smap q folders fi0 := by
  intro folders
  induction folders with
  | nil =>
    intro fi0 j f r hj
    simp at hj
  | cons f0 rest ih =>
    intro fi0 j f r hj hr
    cases j with
    | zero =>
      simp only [List.getElem?_cons_zero, Option.some.injEq] at hj
      subst hj
      exact List.mem_append.mpr (Or.inl (by simpa using hr))
    | succ j =>
      simp only [List.getElem?_cons_succ] at hj
      refine List.mem_append.mpr (Or.inr ?_)
      have harith : fi0 + (j + 1) = fi0 + 1 + j := by omega
      rw [harith] at hr
      exact ih hj hr

/-- A folder row is present in a chunk exactly when the folder matches or
one of its sessions passes the inclusion condition. -/
theorem folder_appears_chunk_iff (fi : Nat) (folder : Folder) (ss : List GoSession)
    (q : String) :
    (∃ r, r ∈ folderChunk fi folder ss q ∧ r.typeOf = RowType.rowFolder ∧
        r.folderIndex = fi) ↔
      (folderMatchesQ folder q = true ∨
        ∃ s ∈ ss, sessionIncluded folder (folderMatchesQ folder q) q s = true) := by
  unfold folderChunk
  dsimp only
  split
  case isTrue hcond =>
    simp only [Bool.and_eq_true, Bool.not_eq_true', List.isEmpty_iff] at hcond
    obtain ⟨hfm, hmt⟩ := hcond
    constructor
    · rintro ⟨r, hr, _⟩
      cases hr
    · intro hrhs
      exfalso
      rcases hrhs with hfm2 | ⟨s, hmem, hincl⟩
      · rw [hfm] at hfm2
        cases hfm2
      · have hmemrow : sessionRowOf folder fi s ∈ matchedRows folder fi ss q :=
          mem_matchedRows.mpr ⟨s, hmem, hincl, rfl⟩
        rw [hmt] at hmemrow
        cases hmemrow
  case isFalse hcond =>
    simp only [Bool.and_eq_true, Bool.not_eq_true', List.isEmpty_iff, not_and] at hcond
    constructor
    · intro _
      by_cases hfm : folderMatchesQ folder q = true
      · exact Or.inl hfm
      · right
        have hne : matchedRows folder fi ss q ≠ [] :=
          hcond (Bool.not_eq_true _ ▸ (by simpa using hfm))
        obtain ⟨r, hr⟩ := List.exists_mem_of_ne_nil _ hne
        obtain ⟨s, hmem, hincl, rfl⟩ := mem_matchedRows.mp hr
        exact ⟨s, hmem, hincl⟩
    · intro _
      exact ⟨folderRowOf fi, List.mem_cons_self _ _, rfl, rfl⟩

/-- C5: with a non-empty processed filter, a folder row appears exactly
when the folder metadata matches or some of its sessions matches; whenever
the folder metadata matches, every one of its sessions appears as a row;
and with an empty filter every folder and every session appears. -/
theorem filter_folder_inclusion (folders : List Folder) (smap : Nat → List GoSession)
    (filterQuery : String) (fi : Nat) (folder : Folder)
    (hf : folders[fi]? = some folder) :
    ((lowerStr (trimSpaceStr filterQuery)) ≠ "" →
      ((∃ r, r ∈ buildRows folders smap filterQuery ∧
          r.typeOf = RowType.rowFolder ∧ r.folderIndex = fi) ↔
        (folderMatchesQ folder (lowerStr (trimSpaceStr filterQuery)) = true ∨
          ∃ s ∈ smap fi,
            sessionMatchesQ folder (lowerStr (trimSpaceStr filterQuery)) s = true))) ∧
    (folderMatchesQ folder (lowerStr (trimSpaceStr filterQuery)) = true →
      ∀ s ∈ smap fi, ∃ r, r ∈ buildRows folders smap filterQuery ∧
        r.typeOf = RowType.rowSession ∧ r.folderIndex = fi ∧ r.sessionName = s.name) ∧
    (lowerStr (trimSpaceStr filterQuery) = "" →
      (∃ r, r ∈ buildRows folders smap filterQuery ∧
        r.typeOf = RowType.rowFolder ∧ r.folderIndex = fi) ∧
      ∀ s ∈ smap fi, ∃ r, r ∈ buildRows folders smap filterQuery ∧
        r.typeOf = RowType.rowSession ∧ r.folderIndex = fi ∧ r.sessionName = s.name) := by
  have happ : (∃ r, r ∈ buildRows folders smap filterQuery ∧
      r.typeOf = RowType.rowFolder ∧ r.folderIndex = fi) ↔
      (∃ r, r ∈ folderChunk fi folder (smap fi) (lowerStr (trimSpaceStr filterQuery)) ∧
        r.typeOf = RowType.rowFolder ∧ r.folderIndex = fi) := by
    constructor
    · rintro ⟨r, hr, ht, hidx⟩
      obtain ⟨j, f', hj, hcr⟩ := mem_chunk_of_mem_aux hr
      have hidx2 : r.folderIndex = 0 + j := chunk_folderIndex hcr
      have hji : j = fi := by omega
      subst hji
      rw [hf] at hj
      injection hj with hj
      subst hj
      exact ⟨r, by simpa using hcr, ht, hidx⟩
    · rintro ⟨r, hr, ht, hidx⟩
      refine ⟨r, ?_, ht, hidx⟩
      exact mem_aux_of_mem_chunk hf (by simpa using hr)
  have hsess : ∀ s ∈ smap fi,
      sessionIncluded folder (folderMatchesQ folder (lowerStr (trimSpaceStr filterQuery)))
        (lowerStr (trimSpaceStr filterQuery)) s = true →
      ∃ r, r ∈ buildRows folders smap filterQuery ∧
        r.typeOf = RowType.rowSession ∧ r.folderIndex = fi ∧ r.sessionName = s.name := by
    intro s hs hincl
    refine ⟨sessionRowOf folder fi s, ?_, rfl, rfl, rfl⟩
    apply mem_aux_of_mem_chunk hf
    have hmemrow : sessionRowOf folder fi s ∈
        matchedRows folder fi (smap fi) (lowerStr (trimSpaceStr filterQuery)) :=
      mem_matchedRows.mpr ⟨s, hs, hincl, rfl⟩
    unfold folderChunk
    dsimp only
    rw [Nat.zero_add]
    split
    case isTrue hcond =>
      simp only [Bool.and_eq_true, Bool.not_eq_true', List.isEmpty_iff] at hcond
      rw [hcond.2] at hmemrow
      cases hmemrow
    case isFalse hcond =>
      exact List.mem_cons_of_mem _ hmemrow
  refine ⟨?_, ?_, ?_⟩
  · intro hq
    have hq' : ((lowerStr (trimSpaceStr filterQuery)) == "") = false :=
      beq_eq_false_iff_ne.mpr hq
    rw [happ, folder_appears_chunk_iff]
    by_cases hfm : folderMatchesQ folder (lowerStr (trimSpaceStr filterQuery)) = true
    · simp [hfm]
    · have hfm' : folderMatchesQ folder (lowerStr (trimSpaceStr filterQuery)) = false := by
        simpa using hfm
      constructor
      · intro hcase
        rcases hcase with hfm2 | ⟨s, hs, hincl⟩
        · exact absurd hfm2 hfm
        · refine Or.inr ⟨s, hs, ?_⟩
          simpa [sessionIncluded, sessionMatchesQ, hfm', hq'] using hincl
      · intro hcase
        rcases hcase with hfm2 | ⟨s, hs, hsm⟩
        · exact absurd hfm2 hfm
        · refine Or.inr ⟨s, hs, ?_⟩
          simpa [sessionIncluded, sessionMatchesQ, hfm', hq'] using hsm
  · intro hfm s hs
    exact hsess s hs (by simp [sessionIncluded, hfm])
  · intro hq
    have hfm : folderMatchesQ folder (lowerStr (trimSpaceStr filterQuery)) = true := by
      unfold folderMatchesQ
      rw [hq]
      rfl
    constructor
    · rw [happ, folder_appears_chunk_iff]
      exact Or.inl hfm
    · intro s hs
      exact hsess s hs (by simp [sessionIncluded, hfm])

/-- Witness: with filter text matching the folder name, the folder row
appears in the built list. -/
theorem filter_folder_inclusion_witness :
    ([fAPI][0]? = some fAPI) ∧
    (lowerStr (trimSpaceStr "api") ≠ "") ∧
    ∃ r, r ∈ buildRows [fAPI] (fun _ => []) "api" ∧
      r.typeOf = RowType.rowFolder ∧ r.folderIndex = 0 :=
  ⟨rfl, by decide,
    ((filter_folder_inclusion [fAPI] (fun _ => []) "api" 0 fAPI rfl).1 (by decide)).mpr
      (Or.inl (by decide))⟩

/-! ## C9: leaf sanitization -/

/-- A whitespace character is not in [a-z0-9]. -/
theorem ws_not_leaf {c : Char} (h : c.isWhitespace = true) : isLeafChar c = false := by
  simp [Char.isWhitespace] at h
  rcases h with ((h | h) | h) | h <;> subst h <;> decide

/-- A whitespace character is not a slash. -/
theorem ws_not_slash {c : Char} (h : c.isWhitespace = true) : c ≠ '/' := by
  simp [Char.isWhitespace] at h
  rcases h with ((h | h) | h) | h <;> subst h <;> decide

/-- The sanitizeLeaf loop is the Slug loop applied after dropping slashes:
skipping a slash leaves the lastDash flag untouched, which is the same as
removing the slash before the collapse. -/
theorem sanitizeCore_filter : ∀ (l : List Char) (d : Bool),
    sanitizeCore l d = slugCore (l.filter (fun c => c != '/')) d := by
  intro l
  induction l with
  | nil => intro d; rfl
  | cons c cs ih =>
    intro d
    by_cases hsl : c = '/'
    · subst hsl
      simp [sanitizeCore, List.filter_cons, isLeafChar, ih d]
    · by_cases hc : isLeafChar c = true
      · simp [sanitizeCore, slugCore, List.filter_cons, hsl, hc, ih false]
      · cases d with
        | true => simp [sanitizeCore, slugCore, List.filter_cons, hsl, hc, ih true]
        | false => simp [sanitizeCore, slugCore, List.filter_cons, hsl, hc, ih true]

/-- Starting the collapse with the lastDash flag set differs from starting
without it by at most one leading hyphen. -/
theorem sanitizeCore_false_true : ∀ l : List Char,
    sanitizeCore l false = sanitizeCore l true ∨
      sanitizeCore l false = '-' :: sanitizeCore l true := by
  intro l
  induction l with
  | nil => exact Or.inl rfl
  | cons c cs ih =>
    by_cases hc : isLeafChar c = true
    · exact Or.inl (by simp [sanitizeCore, hc])
    · by_cases hsl : c = '/'
      · subst hsl
        simpa [sanitizeCore, isLeafChar] using ih
      · exact Or.inr (by simp [sanitizeCore, hc, hsl])

/-- Trimming hyphens from both ends absorbs a leading hyphen. -/
theorem trimEnds_dash_cons (l : List Char) :
    trimEnds (fun c => c == '-') ('-' :: l) = trimEnds (fun c => c == '-') l := by
  unfold trimEnds
  rw [List.dropWhile_cons]
  simp

/-- Trimming hyphens from both ends absorbs a trailing hyphen. -/
theorem trimEnds_dash_append_dash (x : List Char) :
    trimEnds (fun c => c == '-') (x ++ ['-']) = trimEnds (fun c => c == '-') x := by
  unfold trimEnds
  rw [List.dropWhile_append]
  cases hdx : (x.dropWhile (fun c => c == '-')).isEmpty with
  | true =>
    rw [if_pos rfl]
    rw [List.isEmpty_iff] at hdx
    rw [hdx]
    simp [List.dropWhile]
  | false =>
    rw [if_neg (by simp [hdx])]
    rw [List.reverse_append]
    simp [List.dropWhile_cons]

/-- The initial lastDash flag does not change the hyphen-trimmed collapse. -/
theorem td_core_false_true (l : List Char) :
    trimEnds (fun c => c == '-') (sanitizeCore l false) =
      trimEnds (fun c => c == '-') (sanitizeCore l true) := by
  rcases sanitizeCore_false_true l with h | h
  · rw [h]
  · rw [h, trimEnds_dash_cons]

/-- Dropping leading whitespace does not change the hyphen-trimmed collapse. -/
theorem td_core_dropWhile_ws : ∀ l : List Char,
    trimEnds (fun c => c == '-')
        (sanitizeCore (l.dropWhile Char.isWhitespace) false) =
      trimEnds (fun c => c == '-') (sanitizeCore l false) := by
  intro l
  induction l with
  | nil => rfl
  | cons c cs ih =>
    by_cases hw : Char.isWhitespace c = true
    · rw [List.dropWhile_cons, if_pos hw, ih]
      have hcore : sanitizeCore (c :: cs) false = '-' :: sanitizeCore cs true := by
        simp [sanitizeCore, ws_not_leaf hw, ws_not_slash hw]
      rw [hcore, trimEnds_dash_cons, td_core_false_true]
    · rw [List.dropWhile_cons, if_neg hw]

/-- The collapse splits over an append, threading some lastDash flag. -/
theorem sanitizeCore_append : ∀ (l1 : List Char) (d : Bool), ∃ d' : Bool,
    ∀ l2 : List Char, sanitizeCore (l1 ++ l2) d = sanitizeCore l1 d ++ sanitizeCore l2 d' := by
  intro l1
  induction l1 with
  | nil => intro d; exact ⟨d, fun l2 => rfl⟩
  | cons c cs ih =>
    intro d
    by_cases hc : isLeafChar c = true
    · obtain ⟨d', h⟩ := ih false
      exact ⟨d', fun l2 => by simp [sanitizeCore, hc, h l2]⟩
    · by_cases hsl : c = '/'
      · obtain ⟨d', h⟩ := ih d
        exact ⟨d', fun l2 => by simp [sanitizeCore, isLeafChar, hc, hsl, h l2]⟩
      · cases d with
        | true =>
          obtain ⟨d', h⟩ := ih true
          exact ⟨d', fun l2 => by simp [sanitizeCore, hc, hsl, h l2]⟩
        | false =>
          obtain ⟨d', h⟩ := ih true
          exact ⟨d', fun l2 => by simp [sanitizeCore, hc, hsl, h l2]⟩

/-- Dropping trailing whitespace does not change the hyphen-trimmed collapse. -/
theorem td_core_trailing (l : List Char) :
    trimEnds (fun c => c == '-')
        (sanitizeCore ((l.reverse.dropWhile Char.isWhitespace).reverse) false) =
      trimEnds (fun c => c == '-') (sanitizeCore l false) := by
  induction l using List.reverseRecOn with
  | nil => rfl
  | append_singleton l0 a ih =>
    by_cases hw : Char.isWhitespace a = true
    · have h1 : ((l0 ++ [a]).reverse.dropWhile Char.isWhitespace).reverse =
          (l0.reverse.dropWhile Char.isWhitespace).reverse := by
        rw [List.reverse_append]
        simp [List.dropWhile_cons, hw]
      rw [h1, ih]
      obtain ⟨d', happ⟩ := sanitizeCore_append l0 false
      rw [happ [a]]
      have ha : sanitizeCore [a] d' = if d' = true then [] else ['-'] := by
        cases d' <;> simp [sanitizeCore, ws_not_leaf hw, ws_not_slash hw]
      cases d' with
      | true =>
        rw [ha, if_pos rfl, List.append_nil]
      | false =>
        rw [ha, if_neg (by simp)]
        exact (trimEnds_dash_append_dash _).symm
    · have h1 : ((l0 ++ [a]).reverse.dropWhile Char.isWhitespace).reverse = l0 ++ [a] := by
        rw [List.reverse_append]
        simp [List.dropWhile_cons, hw]
      rw [h1]

/-- C9: ui.sanitizeLeaf computes exactly the pipeline the specification
describes (lowercase, drop slashes, collapse non-alphanumeric runs to
single hyphens, trim hyphens, fall back to "session"), and the three
quoted examples hold. -/
theorem sanitizeLeaf_spec :
    (∀ s : String, sanitizeLeaf s = specSanitizeLeaf s) ∧
    sanitizeLeaf " Feature/ABC 123 " = "featureabc-123" ∧
    sanitizeLeaf "----" = "session" ∧
    sanitizeLeaf "my__name" = "my-name" := by
  refine ⟨?_, by decide, by decide, by decide⟩
  intro s
  unfold sanitizeLeaf specSanitizeLeaf
  dsimp only
  have h1 : trimSpaceChars (s.data.map Char.toLower) =
      ((((s.data.map Char.toLower).dropWhile Char.isWhitespace).reverse.dropWhile
        Char.isWhitespace).reverse) := rfl
  have key : trimEnds (fun c => c == '-')
      (sanitizeCore (trimSpaceChars (s.data.map Char.toLower)) false) =
      trimEnds (fun c => c == '-')
        (slugCore ((s.data.map Char.toLower).filter (fun c => c != '/')) false) := by
    rw [h1, td_core_trailing ((s.data.map Char.toLower).dropWhile Char.isWhitespace),
      td_core_dropWhile_ws, sanitizeCore_filter]
  rw [key]
